import Mathlib

/-!
Shallow embedding of the caching data-acquisition layer of the
WGU-Capstone-BSDA repository (file `src/utilities.py`), together with
theorems settling the specification claims about it.

The embedding models:
  * `_cache_paths`, `_load_metadata`, `save_atomic`, `_make_session`,
    `fetch_with_cache` from `src/utilities.py`;
  * the pieces of library behaviour those functions lean on:
    Python `pathlib.Path.with_suffix` (suffix replacement on the file
    name), urllib3 `Retry` (status-forcelist retry counting), the
    `requests` adapter-mount prefix dispatch and `raise_for_status`,
    and the element-wise numeric coercion of `pandas.to_numeric`
    with coercion of unparseable entries to the missing marker.

The filesystem is explicit state (an association list from paths to
file contents with a modification time); the network is a function
from the attempt index to the response the endpoint produces.
-/

namespace Capstone

/-- Equality of `Except` outcomes is decidable componentwise. -/
instance {ε α : Type} [DecidableEq ε] [DecidableEq α] : DecidableEq (Except ε α)
  | .ok a, .ok b =>
    if h : a = b then .isTrue (by rw [h]) else .isFalse (by intro c; cases c; exact h rfl)
  | .error a, .error b =>
    if h : a = b then .isTrue (by rw [h]) else .isFalse (by intro c; cases c; exact h rfl)
  | .ok _, .error _ => .isFalse (by intro c; cases c)
  | .error _, .ok _ => .isFalse (by intro c; cases c)

/-- Value of a run of decimal digit characters. -/
def digitsToNat (l : List Char) : Nat :=
  l.foldl (fun n c => 10 * n + (c.toNat - ('0' : Char).toNat)) 0

/-- Model of the element-wise parse done by `pandas.to_numeric`:
an optional sign, then a decimal literal with at most one point and
at least one digit.  Unparseable strings give `none` (the missing
marker under the coercing mode used by the code). -/
def parseNum (s : String) : Option ℚ :=
  let core : List Char → Option ℚ := fun cs =>
    let intPart := cs.takeWhile Char.isDigit
    let rest := cs.dropWhile Char.isDigit
    match rest with
    | [] => if intPart.isEmpty then none else some (digitsToNat intPart)
    | '.' :: fracRest =>
      let frac := fracRest.takeWhile Char.isDigit
      if (fracRest.dropWhile Char.isDigit).isEmpty then
        if intPart.isEmpty && frac.isEmpty then none
        else some ((digitsToNat intPart : ℚ) + (digitsToNat frac : ℚ) / 10 ^ frac.length)
      else none
    | _ => none
  match s.data with
  | '-' :: cs => (core cs).map (fun q => -q)
  | '+' :: cs => core cs
  | cs => core cs

/-- A calendar date as parsed by the date column conversion. -/
def PyDate := ℕ × ℕ × ℕ
deriving DecidableEq

/-- Split a character list at dashes (accumulator holds the current
group reversed). -/
def splitDash : List Char → List Char → List (List Char)
  | [], acc => [acc.reverse]
  | c :: cs, acc =>
    if c = '-' then acc.reverse :: splitDash cs [] else splitDash cs (c :: acc)

/-- Model of `pandas.to_datetime` on the ISO `YYYY-MM-DD` strings the
FRED API produces: three dash-separated all-digit groups; anything
else fails (the conversion raises). -/
def parseDate (s : String) : Option PyDate :=
  match splitDash s.data [] with
  | [y, m, d] =>
    if !y.isEmpty && y.all Char.isDigit
        && !m.isEmpty && m.all Char.isDigit
        && !d.isEmpty && d.all Char.isDigit then
      some (digitsToNat y, digitsToNat m, digitsToNat d)
    else none
  | _ => none

/-- One record of the `observations` array of the API payload. -/
structure Obs where
  date : String
  value : String
deriving DecidableEq

/-- The JSON payload of a response body, as far as the code reads it.
`observations = none` models the key being absent, `some none` models
the key holding JSON `null`, `some (some l)` a list of records.
`count = none` models the `count` key being absent. -/
structure Payload where
  observations : Option (Option (List Obs))
  count : Option ℕ
deriving DecidableEq

/-- The Normalized Series Frame: the two-column DataFrame built from a
payload, with the parsed date column and the coerced numeric column
named by the series identifier. -/
structure NormFrame where
  sid : String
  dates : List PyDate
  values : List (Option ℚ)
deriving DecidableEq

/-- The Python-level failure outcomes the embedded code can produce. -/
inductive PyErr where
  | keyError (k : String)
  | fetchError (msg : String)
  | httpError (status : ℕ)
  | retryError
  | invalidSchema
  | jsonDecodeError
  | valueError (msg : String)
  | readError (fmt : String)
deriving DecidableEq

/-- The metadata sidecar record as the code consumes it via `.get`:
three optional fields (an absent key and a JSON `null` both read back
as `none`). -/
structure MetaRec where
  fetched_at : Option ℚ
  etag : Option String
  last_modified : Option String
deriving DecidableEq

/-- Building the Normalized Series Frame from the observation list
(`fetch_with_cache` lines 326-335): the date column goes through the
datetime conversion (which raises on unparseable dates), the value
column through the coercing numeric conversion (unparseable entries
become the missing marker). -/
def normalize (sid : String) (obs : List Obs) : Except PyErr NormFrame :=
  match (obs.map Obs.date).mapM parseDate with
  | none => .error (.valueError "to_datetime")
  | some ds => .ok ⟨sid, ds, obs.map (fun o => parseNum o.value)⟩

/-! ### Path model (Python `pathlib`) -/

/-- Model of the `suffix` property of a Python `pathlib` name: the
portion of the name from its last dot, provided that dot is neither
the first nor the last character; otherwise empty. -/
def pythonSuffix (name : List Char) : List Char :=
  if (name.reverse.dropWhile (fun c => c ≠ '.')).isEmpty
      || (name.reverse.takeWhile (fun c => c ≠ '.')).isEmpty
      || (name.reverse.dropWhile (fun c => c ≠ '.')).tail.isEmpty then []
  else '.' :: (name.reverse.takeWhile (fun c => c ≠ '.')).reverse

/-- Model of Python `Path.with_suffix` on the file name: drop the old
suffix (if any) and append the new one. -/
def pythonWithSuffix (name suffix : List Char) : List Char :=
  name.take (name.length - (pythonSuffix name).length) ++ suffix

/-- A filesystem path, split as the directory part and the final name
component (the only part the path operations of the code touch). -/
structure PyPath where
  dir : String
  name : List Char
deriving DecidableEq

/-- `CACHE_META_SUFFIX` from `src/utilities.py`. -/
def CACHE_META_SUFFIX : List Char := ".meta.json".data

/-- `_cache_paths` from `src/utilities.py`: the data path
`dest/{series_id}.orig.{extension}` and the sidecar path
`dest/{series_id}.orig` + `CACHE_META_SUFFIX`. -/
def cache_paths (dest sid ext : String) : PyPath × PyPath :=
  (⟨dest, sid.data ++ ".orig.".data ++ ext.data⟩,
   ⟨dest, sid.data ++ ".orig".data ++ CACHE_META_SUFFIX⟩)

/-- The sidecar path `save_atomic` writes metadata to:
`data_path.with_suffix(CACHE_META_SUFFIX)`. -/
def metaPathOf (p : PyPath) : PyPath :=
  ⟨p.dir, pythonWithSuffix p.name CACHE_META_SUFFIX⟩

/-- The temporary path of `save_atomic`:
`data_path.with_suffix(data_path.suffix + ".tmp")`. -/
def tmpPathOf (p : PyPath) : PyPath :=
  ⟨p.dir, pythonWithSuffix p.name (pythonSuffix p.name ++ ".tmp".data)⟩

/-! ### Filesystem model -/

/-- What a file on disk can hold, at the granularity the code
distinguishes: a complete encoding of a frame in some format, a torn
prefix of such an encoding (interrupted write), a valid JSON metadata
record, or bytes that are not valid JSON. -/
inductive FileData where
  | enc (fmt : String) (f : NormFrame)
  | torn (fmt : String) (f : NormFrame)
  | jsonMeta (m : MetaRec)
  | badJson
deriving DecidableEq

/-- A file together with its modification time (`st_mtime`). -/
structure FSFile where
  data : FileData
  mtime : ℚ
deriving DecidableEq

/-- The filesystem: an association of paths to files, newest entry
first. -/
def FS := List (PyPath × FSFile)
deriving DecidableEq

def fsLookup (fs : FS) (p : PyPath) : Option FSFile :=
  match fs with
  | [] => none
  | (q, f) :: rest => if q = p then some f else fsLookup rest p

def fsErase (fs : FS) (p : PyPath) : FS :=
  match fs with
  | [] => []
  | (q, f) :: rest => if q = p then fsErase rest p else (q, f) :: fsErase rest p

/-- Write (create or overwrite) a file. -/
def fsWrite (fs : FS) (p : PyPath) (f : FSFile) : FS :=
  (p, f) :: fsErase fs p

/-- Model of `os.replace` (`Path.replace`): atomically move the file
at `src` onto `dst`. -/
def fsReplace (fs : FS) (src dst : PyPath) : FS :=
  match fsLookup fs src with
  | some f => fsWrite (fsErase fs src) dst f
  | none => fs

/-- `_load_metadata` from `src/utilities.py`: an absent file gives the
empty record; an existing file goes through `json.loads`, whose
failure on content that is not valid JSON propagates. -/
def load_metadata (fs : FS) (meta_path : PyPath) : Except PyErr MetaRec :=
  match fsLookup fs meta_path with
  | none => .ok ⟨none, none, none⟩
  | some file =>
    match file.data with
    | .jsonMeta m => .ok m
    | _ => .error .jsonDecodeError

/-! ### `save_atomic` -/

/-- The encoding format actually written for a requested format
string: the `match` of `save_atomic` writes Parquet and Feather for
those two format names and falls back to CSV for anything else. -/
def encFormat (fmt : String) : String :=
  match fmt with
  | "parquet" => "parquet"
  | "feather" => "feather"
  | _ => "csv"

/-- Reading a file with the pandas reader for format `fmt`: succeeds
exactly on a complete encoding in that format. -/
def pandasRead (fmt : String) (d : FileData) : Except PyErr NormFrame :=
  match d with
  | .enc fmt' f => if fmt' = fmt then .ok f else .error (.readError fmt)
  | _ => .error (.readError fmt)

/-- The format `match` used by the two cached-read sites of
`fetch_with_cache`: for Parquet and Feather the read result (or its
failure) is returned; for the CSV fallback a read failure is logged
and control falls through (`none`). -/
def readCached (fmt : String) (file : FSFile) : Option (Except PyErr NormFrame) :=
  match fmt with
  | "parquet" => some (pandasRead "parquet" file.data)
  | "feather" => some (pandasRead "feather" file.data)
  | _ =>
    match pandasRead "csv" file.data with
    | .ok f => some (.ok f)
    | .error _ => none

/-- The successive filesystem states `save_atomic` moves through:
initial; mid-write of the temporary file (torn); temporary file
completely written; after the atomic `replace` onto `data_path`;
after the (conditional, `len(meta) > 0`) sidecar metadata write. -/
def saveAtomicStates (df : NormFrame) (data_path : PyPath) (meta : Option MetaRec)
    (fmt : String) (now : ℚ) (fs : FS) : List FS :=
  let tmp := tmpPathOf data_path
  let s1 := fsWrite fs tmp ⟨.torn (encFormat fmt) df, now⟩
  let s2 := fsWrite s1 tmp ⟨.enc (encFormat fmt) df, now⟩
  let s3 := fsReplace s2 tmp data_path
  let s4 :=
    match meta with
    | some m => fsWrite s3 (metaPathOf data_path) ⟨.jsonMeta m, now⟩
    | none => s3
  [fs, s1, s2, s3, s4]

/-- `save_atomic` from `src/utilities.py` as a filesystem transformer:
the final state of a completed run. -/
def save_atomic_fs (df : NormFrame) (data_path : PyPath) (meta : Option MetaRec)
    (fmt : String) (now : ℚ) (fs : FS) : FS :=
  (saveAtomicStates df data_path meta fmt now fs).getLast (by
    unfold saveAtomicStates; intro h; cases h)

/-! ### HTTP session model (`requests` + urllib3 `Retry`) -/

/-- An HTTP response as the code consumes it: the status code, the
JSON body (`none` when the body is not valid JSON, e.g. the empty
body of a 304), and the two validator headers. -/
structure Response where
  status : ℕ
  body : Option Payload
  etag : Option String
  lastModified : Option String
deriving DecidableEq

/-- The conditional headers the orchestrator attaches to the GET. -/
structure Headers where
  ifNoneMatch : Option String
  ifModifiedSince : Option String
deriving DecidableEq

/-- The `status_forcelist` of `_make_session`. -/
def statusForcelist : List ℕ := [429, 500, 502, 503, 504]

/-- An adapter mounted on the session: the retry adapter built by
`_make_session` (carrying the `total` retry budget), or the default
adapter `requests.Session` pre-mounts (zero retries, no status
forcelist: every response is returned as is). -/
inductive Adapter where
  | retryAdapter (total : ℕ)
  | defaultAdapter
deriving DecidableEq

/-- Case-insensitive "starts with", as `requests` matches URLs
against mounted adapter keys. -/
def startsWithCI : List Char → List Char → Bool
  | _, [] => true
  | [], _ :: _ => false
  | c :: cs, p :: ps => (c.toLower == p.toLower) && startsWithCI cs ps

/-- `_make_session(retries)` from `src/utilities.py`: the session's
adapter mounts after replacing the default `https://` adapter with
the retry adapter; ordered longest mount key first, as `requests`
keeps them. -/
def make_session (retries : ℕ) : List (List Char × Adapter) :=
  [("https://".data, .retryAdapter retries), ("http://".data, .defaultAdapter)]

/-- `Session.get_adapter`: the first mount whose key the URL starts
with (case-insensitively); no match models `InvalidSchema`. -/
def getAdapter (mounts : List (List Char × Adapter)) (uri : String) : Option Adapter :=
  match mounts with
  | [] => none
  | (p, a) :: rest => if startsWithCI uri.data p then some a else getAdapter rest uri

/-- One attempt loop of urllib3 `Retry` with the forcelist of
`_make_session`: attempt `k` receives `responses k`; a response whose
status is in the forcelist consumes one unit of the remaining retry
budget, and an exhausted budget raises (`MaxRetryError`, surfaced by
`requests` as a retry error).  Returns the outcome and the number of
times the endpoint was contacted. -/
def retryGo (responses : ℕ → Response) : ℕ → ℕ → Except PyErr Response × ℕ
  | 0, k =>
    if (responses k).status ∈ statusForcelist then (.error .retryError, k + 1)
    else (.ok (responses k), k + 1)
  | rem + 1, k =>
    if (responses k).status ∈ statusForcelist then retryGo responses rem (k + 1)
    else (.ok (responses k), k + 1)

/-- `session.get`: dispatch on the mounted adapter.  The default
adapter performs the single request and returns whatever comes back;
the retry adapter runs the retry loop; a URL matching no mount raises
without contacting the endpoint. -/
def sessionGet (mounts : List (List Char × Adapter)) (uri : String)
    (responses : ℕ → Response) : Except PyErr Response × ℕ :=
  match getAdapter mounts uri with
  | none => (.error .invalidSchema, 0)
  | some .defaultAdapter => (.ok (responses 0), 1)
  | some (.retryAdapter n) => retryGo responses n 0

/-- Truthiness of an optional string field fetched with `.get`:
`None`/absent and the empty string are falsy. -/
def truthy : Option String → Bool
  | none => false
  | some s => s ≠ ""

/-- The conditional-header construction of `fetch_with_cache`
(lines 288-295): each header is attached exactly when the
corresponding metadata field is truthy. -/
def buildHeaders (m : MetaRec) : Headers :=
  ⟨if truthy m.etag then m.etag else none,
   if truthy m.last_modified then m.last_modified else none⟩

/-! ### `fetch_with_cache` -/

/-- The world a fetch runs against: the filesystem, the wall clock
(`time.time()`), and the endpoint's behaviour per attempt index. -/
structure Env where
  fs : FS
  now : ℚ
  responses : ℕ → Response

/-- Observable outcome of one `fetch_with_cache` call: the returned
frame or raised failure, the filesystem afterwards, the number of
endpoint contacts, and the conditional headers that went out with the
request (`none` when no request was transmitted). -/
structure FetchResult where
  result : Except PyErr NormFrame
  fs : FS
  contacts : ℕ
  sentHeaders : Option Headers

/-- Step 1 of `fetch_with_cache` (lines 268-284): if the data file
exists and its age in days is at most `max_age_days`, read it back by
format; `none` means control falls through to the network step. -/
def step1Read (fs : FS) (now : ℚ) (data_path : PyPath) (maxAge : ℚ)
    (fmt : String) : Option (Except PyErr NormFrame) :=
  match fsLookup fs data_path with
  | some file =>
    if (now - file.mtime) / 86400 ≤ maxAge then readCached fmt file else none
  | none => none

/-- The tail of `fetch_with_cache` after a response was obtained
(lines 300-349): the 304-with-cache return, `raise_for_status`, JSON
body parsing, payload validation, normalization, and the atomic
persist. -/
def processResponse (sid : String) (data_path : PyPath) (fmt : String)
    (env : Env) (resp : Response) (k : ℕ) (headers : Headers) : FetchResult :=
  let fallback : FetchResult :=
    if 400 ≤ resp.status ∧ resp.status < 600 then
      ⟨.error (.httpError resp.status), env.fs, k, some headers⟩
    else
      match resp.body with
      | none => ⟨.error .jsonDecodeError, env.fs, k, some headers⟩
      | some payload =>
        match payload.observations with
        | none => ⟨.error (.keyError "observations"), env.fs, k, some headers⟩
        | some none =>
          ⟨.error (.fetchError "Missing 'observations' in FRED API response"),
            env.fs, k, some headers⟩
        | some (some obs) =>
          match payload.count with
          | none => ⟨.error (.keyError "count"), env.fs, k, some headers⟩
          | some _ =>
            match normalize sid obs with
            | .error e => ⟨.error e, env.fs, k, some headers⟩
            | .ok df =>
              ⟨.ok df,
                save_atomic_fs df data_path
                  (some ⟨some env.now, resp.etag, resp.lastModified⟩) fmt env.now env.fs,
                k, some headers⟩
  if resp.status = 304 then
    match fsLookup env.fs data_path with
    | some file =>
      match readCached fmt file with
      | some r => ⟨r, env.fs, k, some headers⟩
      | none => fallback
    | none => fallback
  else fallback

/-- `fetch_with_cache` from `src/utilities.py`, as a function of the
environment.  Mirrors the source: resolve the cache paths, load the
metadata sidecar (whose JSON failure propagates), try the fresh-cache
return, otherwise issue the conditional GET through the session built
by `_make_session()` and process the response. -/
def fetch_with_cache (sid uri dest : String) (maxAge : ℚ) (fmt : String)
    (env : Env) : FetchResult :=
  let paths := cache_paths dest sid fmt
  match load_metadata env.fs paths.2 with
  | .error e => ⟨.error e, env.fs, 0, none⟩
  | .ok meta =>
    match step1Read env.fs env.now paths.1 maxAge fmt with
    | some r => ⟨r, env.fs, 0, none⟩
    | none =>
      let headers := buildHeaders meta
      match sessionGet (make_session 3) uri env.responses with
      | (.error e, k) =>
        ⟨.error e, env.fs, k, if k = 0 then none else some headers⟩
      | (.ok resp, k) => processResponse sid paths.1 fmt env resp k headers

/-! ### Helper lemmas: list and path structure -/

theorem dropWhile_head_false {α : Type} {p : α → Bool} :
    ∀ {l : List α} {c : α} {t : List α}, l.dropWhile p = c :: t → p c = false := by
  intro l
  induction l with
  | nil => intro c t h; cases h
  | cons a as ih =>
    intro c t h
    by_cases hp : p a
    · exact ih (by rwa [List.dropWhile_cons_of_pos hp] at h)
    · rw [List.dropWhile_cons_of_neg hp] at h
      cases h
      exact Bool.eq_false_iff.mpr hp

/-- Structure of the Python suffix of a name: either empty, or a dot
followed by a dot-free tail that is literally the end of the name
(with the stem being the corresponding `take`). -/
theorem pythonSuffix_shape (name : List Char) :
    pythonSuffix name = [] ∨
      ∃ t, pythonSuffix name = '.' :: t ∧ '.' ∉ t ∧
        name.take (name.length - (t.length + 1)) ++ '.' :: t = name := by
  unfold pythonSuffix
  by_cases hcond : ((name.reverse.dropWhile (fun c => decide (c ≠ '.'))).isEmpty
      || (name.reverse.takeWhile (fun c => decide (c ≠ '.'))).isEmpty
      || (name.reverse.dropWhile (fun c => decide (c ≠ '.'))).tail.isEmpty) = true
  · left; rw [if_pos hcond]
  · rw [if_neg hcond]
    right
    have hdropne : name.reverse.dropWhile (fun c => decide (c ≠ '.')) ≠ [] := by
      intro h0
      exact hcond (by rw [h0]; rfl)
    refine ⟨(name.reverse.takeWhile (fun c => decide (c ≠ '.'))).reverse, rfl, ?_, ?_⟩
    · intro hmem
      have := List.mem_takeWhile_imp (List.mem_reverse.mp hmem)
      simp at this
    · cases hdrop : name.reverse.dropWhile (fun c => decide (c ≠ '.')) with
      | nil => exact absurd hdrop hdropne
      | cons c stemR =>
        have hc : c = '.' := by
          have := dropWhile_head_false hdrop
          simpa using this
        subst hc
        have hsplit : name.reverse.takeWhile (fun c => decide (c ≠ '.')) ++ '.' :: stemR
            = name.reverse := by
          rw [← hdrop]
          exact List.takeWhile_append_dropWhile _ _
        set A := name.reverse.takeWhile (fun c => decide (c ≠ '.')) with hA
        have hname : name = stemR.reverse ++ '.' :: A.reverse := by
          have h2 := congrArg List.reverse hsplit
          rw [List.reverse_reverse] at h2
          rw [← h2]
          simp
        rw [hname]
        have hlen2 : (stemR.reverse ++ '.' :: A.reverse).length - (A.reverse.length + 1)
            = stemR.reverse.length := by
          simp only [List.length_append, List.length_cons]
          omega
        rw [hlen2, List.take_left]

/-- Replacing a name's suffix by that same suffix extended just
appends the extension: this is the temporary-path computation
`with_suffix(suffix + ".tmp")` of `save_atomic`. -/
theorem pythonWithSuffix_own_suffix (name s : List Char) :
    pythonWithSuffix name (pythonSuffix name ++ s) = name ++ s := by
  rcases pythonSuffix_shape name with h | ⟨t, h, _, hsplit⟩
  · unfold pythonWithSuffix
    rw [h]
    simp
  · unfold pythonWithSuffix
    rw [h]
    simp only [List.length_cons]
    rw [← List.append_assoc, hsplit]

theorem tmpPathOf_name (p : PyPath) : (tmpPathOf p).name = p.name ++ ".tmp".data :=
  pythonWithSuffix_own_suffix p.name ".tmp".data

theorem tmpPathOf_ne (p : PyPath) : tmpPathOf p ≠ p := by
  intro h
  have h2 := congrArg PyPath.name h
  rw [tmpPathOf_name] at h2
  have := congrArg List.length h2
  simp at this

theorem metaPathOf_ne (p : PyPath) : metaPathOf p ≠ p := by
  intro h
  have hn : pythonWithSuffix p.name CACHE_META_SUFFIX = p.name := congrArg PyPath.name h
  rcases pythonSuffix_shape p.name with hs | ⟨t, hs, hdot, hsplit⟩
  · unfold pythonWithSuffix at hn
    rw [hs] at hn
    simp only [List.length_nil, Nat.sub_zero, List.take_length] at hn
    have := congrArg List.length hn
    simp [CACHE_META_SUFFIX] at this
  · unfold pythonWithSuffix at hn
    rw [hs] at hn
    simp only [List.length_cons] at hn
    have hcms : CACHE_META_SUFFIX = '.' :: t :=
      List.append_cancel_left (hn.trans hsplit.symm)
    have ht : t = "meta.json".data := by
      have := congrArg List.tail hcms
      simpa [CACHE_META_SUFFIX] using this.symm
    rw [ht] at hdot
    simp at hdot

/-! ### Helper lemmas: filesystem -/

theorem fsLookup_erase_ne (fs : FS) (p q : PyPath) (h : p ≠ q) :
    fsLookup (fsErase fs p) q = fsLookup fs q := by
  induction fs with
  | nil => rfl
  | cons e rest ih =>
    obtain ⟨a, f⟩ := e
    by_cases ha : a = p
    · have haq : a ≠ q := by rw [ha]; exact h
      simp only [fsErase, fsLookup, if_pos ha, if_neg haq]
      exact ih
    · by_cases haq : a = q
      · simp only [fsErase, fsLookup, if_neg ha, if_pos haq]
      · simp only [fsErase, fsLookup, if_neg ha, if_neg haq]
        exact ih

theorem fsLookup_write_self (fs : FS) (p : PyPath) (f : FSFile) :
    fsLookup (fsWrite fs p f) p = some f := by
  simp [fsWrite, fsLookup]

theorem fsLookup_write_ne (fs : FS) (p q : PyPath) (f : FSFile) (h : p ≠ q) :
    fsLookup (fsWrite fs p f) q = fsLookup fs q := by
  simp only [fsWrite, fsLookup, if_neg h]
  exact fsLookup_erase_ne fs p q h

/-! ### Claim C1: atomicity of `save_atomic` -/

/-- C1.  `save_atomic(df, data_path, meta, fmt)`: in every state
reached before the rename/replace step (initial, mid-write of the
temporary file, temporary file complete) the content at `data_path`
is exactly what it was initially; after a completed call `data_path`
holds exactly the complete new encoding; and in no state of the run
does `data_path` hold a torn (partially written) file, provided it
did not hold one initially. -/
theorem claim1_save_atomic_atomicity (df : NormFrame) (data_path : PyPath)
    (meta : Option MetaRec) (fmt : String) (now : ℚ) (fs : FS)
    (hinit : ∀ f, fsLookup fs data_path = some f → ∀ fmt' g, f.data ≠ .torn fmt' g) :
    (∀ s ∈ (saveAtomicStates df data_path meta fmt now fs).take 3,
        fsLookup s data_path = fsLookup fs data_path) ∧
    (∃ f, fsLookup (save_atomic_fs df data_path meta fmt now fs) data_path = some f ∧
        f.data = .enc (encFormat fmt) df) ∧
    (∀ s ∈ saveAtomicStates df data_path meta fmt now fs, ∀ f,
        fsLookup s data_path = some f → ∀ fmt' g, f.data ≠ .torn fmt' g) := by
  have htmp : tmpPathOf data_path ≠ data_path := tmpPathOf_ne data_path
  have hmeta : metaPathOf data_path ≠ data_path := metaPathOf_ne data_path
  have hs1 : fsLookup (fsWrite fs (tmpPathOf data_path) ⟨.torn (encFormat fmt) df, now⟩)
      data_path = fsLookup fs data_path :=
    fsLookup_write_ne _ _ _ _ htmp
  have hs2 : fsLookup (fsWrite (fsWrite fs (tmpPathOf data_path)
        ⟨.torn (encFormat fmt) df, now⟩) (tmpPathOf data_path)
        ⟨.enc (encFormat fmt) df, now⟩) data_path = fsLookup fs data_path := by
    rw [fsLookup_write_ne _ _ _ _ htmp]
    exact hs1
  have hs3 : fsLookup (fsReplace (fsWrite (fsWrite fs (tmpPathOf data_path)
        ⟨.torn (encFormat fmt) df, now⟩) (tmpPathOf data_path)
        ⟨.enc (encFormat fmt) df, now⟩) (tmpPathOf data_path) data_path) data_path
      = some ⟨.enc (encFormat fmt) df, now⟩ := by
    unfold fsReplace
    rw [fsLookup_write_self]
    exact fsLookup_write_self _ _ _
  have hs4 : fsLookup (save_atomic_fs df data_path meta fmt now fs) data_path
      = some ⟨.enc (encFormat fmt) df, now⟩ := by
    unfold save_atomic_fs saveAtomicStates
    cases meta with
    | none => simpa using hs3
    | some m =>
      simp only [List.getLast]
      rw [fsLookup_write_ne _ _ _ _ hmeta]
      exact hs3
  refine ⟨?_, ⟨⟨.enc (encFormat fmt) df, now⟩, hs4, rfl⟩, ?_⟩
  · intro s hmem
    simp only [saveAtomicStates, List.take, List.mem_cons, List.not_mem_nil, or_false] at hmem
    rcases hmem with rfl | rfl | rfl
    · rfl
    · exact hs1
    · exact hs2
  · intro s hmem f hf fmt' g
    simp only [saveAtomicStates, List.mem_cons, List.not_mem_nil, or_false] at hmem
    have hfinal := hs4
    unfold save_atomic_fs saveAtomicStates at hfinal
    rcases hmem with rfl | rfl | rfl | rfl | rfl
    · exact hinit f hf fmt' g
    · rw [hs1] at hf; exact hinit f hf fmt' g
    · rw [hs2] at hf; exact hinit f hf fmt' g
    · rw [hs3] at hf
      cases hf
      intro hcon
      cases hcon
    · cases meta with
      | none =>
        simp only [List.getLast] at hfinal
        rw [hfinal] at hf
        cases hf
        intro hcon
        cases hcon
      | some m =>
        simp only [List.getLast] at hfinal
        rw [hfinal] at hf
        cases hf
        intro hcon
        cases hcon

/-- Witness for C1 at a concrete run: empty initial filesystem,
Parquet format, a one-row frame. -/
theorem claim1_witness :
    (∀ s ∈ (saveAtomicStates ⟨"FOO", [(2020, 1, 1)], [some 1]⟩
          ⟨"data/orig", "FOO.orig.parquet".data⟩ (some ⟨some 5, none, none⟩)
          "parquet" 5 []).take 3,
        fsLookup s ⟨"data/orig", "FOO.orig.parquet".data⟩
          = fsLookup [] ⟨"data/orig", "FOO.orig.parquet".data⟩) ∧
    (∃ f, fsLookup (save_atomic_fs ⟨"FOO", [(2020, 1, 1)], [some 1]⟩
          ⟨"data/orig", "FOO.orig.parquet".data⟩ (some ⟨some 5, none, none⟩)
          "parquet" 5 []) ⟨"data/orig", "FOO.orig.parquet".data⟩ = some f ∧
        f.data = .enc (encFormat "parquet") ⟨"FOO", [(2020, 1, 1)], [some 1]⟩) ∧
    (∀ s ∈ saveAtomicStates ⟨"FOO", [(2020, 1, 1)], [some 1]⟩
          ⟨"data/orig", "FOO.orig.parquet".data⟩ (some ⟨some 5, none, none⟩)
          "parquet" 5 [], ∀ f,
        fsLookup s ⟨"data/orig", "FOO.orig.parquet".data⟩ = some f →
          ∀ fmt' g, f.data ≠ .torn fmt' g) :=
  claim1_save_atomic_atomicity ⟨"FOO", [(2020, 1, 1)], [some 1]⟩
    ⟨"data/orig", "FOO.orig.parquet".data⟩ (some ⟨some 5, none, none⟩)
    "parquet" 5 [] (by intro f hf; cases hf)

/-! ### Claim C2: corrupt metadata sidecar -/

/-- C2 counterexample.  With the sidecar file present but not valid
JSON, `fetch_with_cache` propagates the JSON decode failure as a
fatal error and contacts the endpoint zero times, whereas the same
call with the sidecar absent (all else equal) succeeds — so a corrupt
sidecar is not treated identically to an absent one. -/
theorem claim2_counterexample :
    (fetch_with_cache "FOO" "https://api.example/obs" "data/orig" 30 "parquet"
        ⟨[((cache_paths "data/orig" "FOO" "parquet").2, ⟨.badJson, 0⟩)], 0,
          fun _ => ⟨200, some ⟨some (some [⟨"2020-01-01", "1.5"⟩]), some 1⟩, none, none⟩⟩).result
      = .error .jsonDecodeError ∧
    (fetch_with_cache "FOO" "https://api.example/obs" "data/orig" 30 "parquet"
        ⟨[((cache_paths "data/orig" "FOO" "parquet").2, ⟨.badJson, 0⟩)], 0,
          fun _ => ⟨200, some ⟨some (some [⟨"2020-01-01", "1.5"⟩]), some 1⟩, none, none⟩⟩).contacts
      = 0 ∧
    (fetch_with_cache "FOO" "https://api.example/obs" "data/orig" 30 "parquet"
        ⟨[], 0,
          fun _ => ⟨200, some ⟨some (some [⟨"2020-01-01", "2"⟩]), some 1⟩, none, none⟩⟩).result
      = .ok ⟨"FOO", [(2020, 1, 1)], [some 2]⟩ := by
  refine ⟨?_, ?_, ?_⟩ <;> decide

/-- C2 as amended.  If the metadata sidecar file exists but does not
contain valid JSON, `fetch_with_cache` propagates the JSON decode
failure to the caller as a fatal error: no cached data is returned,
no request is made and the filesystem is untouched.  (Only an absent
sidecar is treated as the empty record.) -/
theorem claim2_corrupt_meta_is_fatal (sid uri dest : String) (maxAge : ℚ)
    (fmt : String) (env : Env) (file : FSFile)
    (hmeta : fsLookup env.fs (cache_paths dest sid fmt).2 = some file)
    (hbad : file.data = .badJson) :
    (fetch_with_cache sid uri dest maxAge fmt env).result = .error .jsonDecodeError ∧
    (fetch_with_cache sid uri dest maxAge fmt env).contacts = 0 ∧
    (fetch_with_cache sid uri dest maxAge fmt env).fs = env.fs := by
  have hload : load_metadata env.fs (cache_paths dest sid fmt).2 = .error .jsonDecodeError := by
    simp [load_metadata, hmeta, hbad]
  refine ⟨?_, ?_, ?_⟩ <;> simp [fetch_with_cache, hload]

/-- Witness for C2's amended theorem at a concrete corrupt sidecar. -/
theorem claim2_witness :
    (fetch_with_cache "FOO" "https://api.example/obs" "data/orig" 30 "parquet"
        ⟨[((cache_paths "data/orig" "FOO" "parquet").2, ⟨.badJson, 0⟩)], 0,
          fun _ => ⟨200, none, none, none⟩⟩).result = .error .jsonDecodeError ∧
    (fetch_with_cache "FOO" "https://api.example/obs" "data/orig" 30 "parquet"
        ⟨[((cache_paths "data/orig" "FOO" "parquet").2, ⟨.badJson, 0⟩)], 0,
          fun _ => ⟨200, none, none, none⟩⟩).contacts = 0 ∧
    (fetch_with_cache "FOO" "https://api.example/obs" "data/orig" 30 "parquet"
        ⟨[((cache_paths "data/orig" "FOO" "parquet").2, ⟨.badJson, 0⟩)], 0,
          fun _ => ⟨200, none, none, none⟩⟩).fs
      = [((cache_paths "data/orig" "FOO" "parquet").2, ⟨.badJson, 0⟩)] :=
  claim2_corrupt_meta_is_fatal "FOO" "https://api.example/obs" "data/orig" 30 "parquet"
    ⟨[((cache_paths "data/orig" "FOO" "parquet").2, ⟨.badJson, 0⟩)], 0,
      fun _ => ⟨200, none, none, none⟩⟩ ⟨.badJson, 0⟩ (by decide) rfl

/-! ### Claim C3: missing / null `observations` -/

/-- C3 counterexample.  A 200 response whose JSON payload lacks the
`observations` key makes `fetch_with_cache` fail with a `KeyError`
(the generic subscript crash), not with the typed `FetchError` the
claim asserts. -/
theorem claim3_counterexample :
    (fetch_with_cache "FOO" "https://api.example/obs" "data/orig" 30 "parquet"
        ⟨[], 0, fun _ => ⟨200, some ⟨none, some 1⟩, none, none⟩⟩).result
      = .error (.keyError "observations") ∧
    (fetch_with_cache "FOO" "https://api.example/obs" "data/orig" 30 "parquet"
        ⟨[], 0, fun _ => ⟨200, some ⟨none, some 1⟩, none, none⟩⟩).result
      ≠ .error (.fetchError "Missing 'observations' in FRED API response") := by
  refine ⟨?_, ?_⟩ <;> decide

/-- C3 as amended.  For a 200 response with a valid JSON body: an
`observations` key holding `null` fails with the typed
`FetchError("Missing 'observations' in FRED API response")`, but a
payload lacking the `observations` key altogether fails with a
generic `KeyError`. -/
theorem claim3_observations_validation (sid uri dest : String) (maxAge : ℚ)
    (fmt : String) (env : Env) (m : MetaRec) (resp : Response) (p : Payload) (k : ℕ)
    (hmeta : load_metadata env.fs (cache_paths dest sid fmt).2 = .ok m)
    (hstep1 : step1Read env.fs env.now (cache_paths dest sid fmt).1 maxAge fmt = none)
    (hsess : sessionGet (make_session 3) uri env.responses = (.ok resp, k))
    (hstatus : resp.status = 200)
    (hbody : resp.body = some p) :
    (p.observations = some none →
      (fetch_with_cache sid uri dest maxAge fmt env).result
        = .error (.fetchError "Missing 'observations' in FRED API response")) ∧
    (p.observations = none →
      (fetch_with_cache sid uri dest maxAge fmt env).result
        = .error (.keyError "observations")) := by
  constructor <;> intro hobs <;>
    simp [fetch_with_cache, hmeta, hstep1, hsess, processResponse, hstatus, hbody, hobs]

/-- Witness for C3's amended theorem: both failure shapes at concrete
payloads. -/
theorem claim3_witness :
    (fetch_with_cache "FOO" "https://api.example/obs" "data/orig" 30 "parquet"
        ⟨[], 0, fun _ => ⟨200, some ⟨some none, some 1⟩, none, none⟩⟩).result
      = .error (.fetchError "Missing 'observations' in FRED API response") ∧
    (fetch_with_cache "FOO" "https://api.example/obs" "data/orig" 30 "parquet"
        ⟨[], 0, fun _ => ⟨200, some ⟨none, some 1⟩, none, none⟩⟩).result
      = .error (.keyError "observations") :=
  ⟨(claim3_observations_validation "FOO" "https://api.example/obs" "data/orig" 30 "parquet"
      ⟨[], 0, fun _ => ⟨200, some ⟨some none, some 1⟩, none, none⟩⟩
      ⟨none, none, none⟩ ⟨200, some ⟨some none, some 1⟩, none, none⟩ ⟨some none, some 1⟩ 1
      rfl rfl (by decide) rfl rfl).1 rfl,
   (claim3_observations_validation "FOO" "https://api.example/obs" "data/orig" 30 "parquet"
      ⟨[], 0, fun _ => ⟨200, some ⟨none, some 1⟩, none, none⟩⟩
      ⟨none, none, none⟩ ⟨200, some ⟨none, some 1⟩, none, none⟩ ⟨none, some 1⟩ 1
      rfl rfl (by decide) rfl rfl).2 rfl⟩

/-! ### Claim C5: retry count on persistent 503 -/

/-- C5 counterexample.  A session built by `_make_session(retries=3)`
against an endpoint answering 503 on every attempt contacts the
endpoint 4 times (the initial request plus 3 retries) before the
failure is surfaced — not exactly 3 as claimed. -/
theorem claim5_counterexample :
    sessionGet (make_session 3) "https://api.example/obs"
        (fun _ => ⟨503, none, none, none⟩)
      = (.error .retryError, 4) ∧ (4 : ℕ) ≠ 3 := by
  refine ⟨?_, ?_⟩ <;> decide

theorem retryGo_all_503 (responses : ℕ → Response)
    (h : ∀ j, (responses j).status = 503) :
    ∀ rem k, retryGo responses rem k = (.error .retryError, k + rem + 1) := by
  intro rem
  induction rem with
  | zero =>
    intro k
    simp [retryGo, h k, statusForcelist]
  | succ r ih =>
    intro k
    simp only [retryGo, h k, statusForcelist]
    rw [if_pos (by simp)]
    rw [ih (k + 1)]
    congr 1
    omega

theorem retryGo_first_ok (responses : ℕ → Response) (k : ℕ)
    (h : (responses k).status ∉ statusForcelist) :
    ∀ rem, retryGo responses rem k = (.ok (responses k), k + 1) := by
  intro rem
  cases rem with
  | zero => simp [retryGo, h]
  | succ r => simp [retryGo, h]

/-- C5 as amended.  For `_make_session(retries=N)` over an `https`
endpoint: if every attempt is answered 503, the endpoint is contacted
exactly `N + 1` times (the initial request plus `N` retries) before
the failure is surfaced; and a first response whose status is outside
the forcelist {429, 500, 502, 503, 504} is returned after a single
contact, with no retry. -/
theorem claim5_retry_count (retries : ℕ) (uri : String) (responses : ℕ → Response)
    (huri : startsWithCI uri.data "https://".data = true) :
    ((∀ j, (responses j).status = 503) →
      sessionGet (make_session retries) uri responses
        = (.error .retryError, retries + 1)) ∧
    ((responses 0).status ∉ statusForcelist →
      sessionGet (make_session retries) uri responses = (.ok (responses 0), 1)) := by
  have hadapter : getAdapter (make_session retries) uri = some (.retryAdapter retries) := by
    simp [getAdapter, make_session, huri]
  constructor
  · intro hall
    rw [sessionGet, hadapter]
    simpa using retryGo_all_503 responses hall retries 0
  · intro hok
    rw [sessionGet, hadapter]
    exact retryGo_first_ok responses 0 hok retries

/-- Witness for C5's amended theorem: with `retries = 2` and constant
503 responses, the endpoint is contacted exactly 3 times; with a 200
first response, exactly once. -/
theorem claim5_witness :
    sessionGet (make_session 2) "https://api.example/obs"
        (fun _ => ⟨503, none, none, none⟩) = (.error .retryError, 3) ∧
    sessionGet (make_session 2) "https://api.example/obs"
        (fun _ => ⟨200, none, none, none⟩)
      = (.ok ⟨200, none, none, none⟩, 1) :=
  ⟨(claim5_retry_count 2 "https://api.example/obs" (fun _ => ⟨503, none, none, none⟩)
      (by decide)).1 (fun _ => rfl),
   (claim5_retry_count 2 "https://api.example/obs" (fun _ => ⟨200, none, none, none⟩)
      (by decide)).2 (by decide)⟩

/-! ### Claim C9: the sidecar path written equals the sidecar path read -/

theorem takeWhile_append_cons {α : Type} (p : α → Bool) (a : List α) (c : α) (t : List α)
    (ha : ∀ x ∈ a, p x = true) (hc : p c = false) :
    (a ++ c :: t).takeWhile p = a := by
  induction a with
  | nil => simp [List.takeWhile_cons, hc]
  | cons y ys ih =>
    have hy : p y = true := ha y (List.mem_cons_self y ys)
    simp only [List.cons_append, List.takeWhile_cons, hy, if_true]
    rw [ih (fun x hx => ha x (List.mem_cons_of_mem y hx))]

theorem dropWhile_append_cons {α : Type} (p : α → Bool) (a : List α) (c : α) (t : List α)
    (ha : ∀ x ∈ a, p x = true) (hc : p c = false) :
    (a ++ c :: t).dropWhile p = c :: t := by
  induction a with
  | nil => simp [List.dropWhile_cons, hc]
  | cons y ys ih =>
    have hy : p y = true := ha y (List.mem_cons_self y ys)
    simp only [List.cons_append, List.dropWhile_cons, hy, if_true]
    exact ih (fun x hx => ha x (List.mem_cons_of_mem y hx))

/-- The Python suffix of `{sid}.orig.{ext}` for a non-empty dot-free
extension is `.{ext}`. -/
theorem pythonSuffix_cache_name (sid ext : String)
    (hext : ext.data ≠ []) (hedot : '.' ∉ ext.data) :
    pythonSuffix (sid.data ++ ".orig.".data ++ ext.data) = '.' :: ext.data := by
  have hrev : (sid.data ++ ".orig.".data ++ ext.data).reverse
      = ext.data.reverse ++ '.' :: (['g', 'i', 'r', 'o', '.'] ++ sid.data.reverse) := by
    simp [List.reverse_append]
  have hall : ∀ x ∈ ext.data.reverse, (fun c => decide (c ≠ '.')) x = true := by
    intro x hx
    have : x ∈ ext.data := List.mem_reverse.mp hx
    simp only [decide_eq_true_eq]
    intro h0
    exact hedot (h0 ▸ this)
  have hdot : (fun c => decide (c ≠ '.')) '.' = false := by simp
  have htake : (sid.data ++ ".orig.".data ++ ext.data).reverse.takeWhile
      (fun c => decide (c ≠ '.')) = ext.data.reverse := by
    rw [hrev]
    exact takeWhile_append_cons _ _ _ _ hall hdot
  have hdrop : (sid.data ++ ".orig.".data ++ ext.data).reverse.dropWhile
      (fun c => decide (c ≠ '.')) = '.' :: (['g', 'i', 'r', 'o', '.'] ++ sid.data.reverse) := by
    rw [hrev]
    exact dropWhile_append_cons _ _ _ _ hall hdot
  unfold pythonSuffix
  rw [htake, hdrop]
  rw [if_neg]
  · rw [List.reverse_reverse]
  · simp [hext]

/-- C9.  For every destination directory, non-empty dot-free series
identifier and non-empty dot-free extension, the sidecar path
`save_atomic` writes metadata to (`data_path.with_suffix(CACHE_META_SUFFIX)`
applied to the data path of `_cache_paths`) is exactly the `meta_path`
returned by `_cache_paths`, so metadata saved by one fetch is found
by the next fetch's metadata load. -/
theorem claim9_sidecar_path_agreement (dest sid ext : String)
    (hsid : sid.data ≠ []) (hsdot : '.' ∉ sid.data)
    (hext : ext.data ≠ []) (hedot : '.' ∉ ext.data) :
    metaPathOf (cache_paths dest sid ext).1 = (cache_paths dest sid ext).2 := by
  unfold metaPathOf cache_paths
  simp only
  congr 1
  unfold pythonWithSuffix
  rw [pythonSuffix_cache_name sid ext hext hedot]
  have hlen : (sid.data ++ ".orig.".data ++ ext.data).length - (('.' :: ext.data).length)
      = sid.data.length + 5 := by
    simp only [List.length_append, List.length_cons, List.length_nil]
    omega
  rw [hlen]
  have hassoc : sid.data ++ ".orig.".data ++ ext.data
      = sid.data ++ (".orig.".data ++ ext.data) := by
    rw [List.append_assoc]
  rw [hassoc]
  rw [List.take_append 5]
  have htake5 : (".orig.".data ++ ext.data).take 5 = ".orig".data := by
    rw [List.take_append_of_le_length (by decide)]
    decide
  rw [htake5]

/-- Witness for C9 at the concrete series `FOO` / `parquet`. -/
theorem claim9_witness :
    metaPathOf (cache_paths "data/orig" "FOO" "parquet").1
      = (cache_paths "data/orig" "FOO" "parquet").2 :=
  claim9_sidecar_path_agreement "data/orig" "FOO" "parquet"
    (by decide) (by decide) (by decide) (by decide)

/-! ### Helper lemmas: response processing -/

theorem processResponse_contacts (sid : String) (dp : PyPath) (fmt : String)
    (env : Env) (resp : Response) (k : ℕ) (hd : Headers) :
    (processResponse sid dp fmt env resp k hd).contacts = k := by
  simp only [processResponse]
  repeat' split
  all_goals rfl

theorem processResponse_sentHeaders (sid : String) (dp : PyPath) (fmt : String)
    (env : Env) (resp : Response) (k : ℕ) (hd : Headers) :
    (processResponse sid dp fmt env resp k hd).sentHeaders = some hd := by
  simp only [processResponse]
  repeat' split
  all_goals rfl

/-- Reading back a file that holds a complete encoding in the format
the code would write for `fmt` succeeds with the stored frame, at
both cached-read sites. -/
theorem readCached_enc (fmt : String) (file : FSFile) (f : NormFrame)
    (henc : file.data = .enc (encFormat fmt) f) :
    readCached fmt file = some (.ok f) := by
  by_cases h1 : fmt = "parquet"
  · subst h1; simp [readCached, pandasRead, henc, encFormat]
  · by_cases h2 : fmt = "feather"
    · subst h2; simp [readCached, pandasRead, henc, encFormat]
    · have hcsv : encFormat fmt = "csv" := by
        unfold encFormat
        split
        · exact absurd rfl h1
        · exact absurd rfl h2
        · rfl
      rw [hcsv] at henc
      have hread : readCached fmt file =
          match pandasRead "csv" file.data with
          | .ok f => some (.ok f)
          | .error _ => none := by
        unfold readCached
        split
        · exact absurd rfl h1
        · exact absurd rfl h2
        · rfl
      rw [hread, henc]
      simp [pandasRead]

theorem retryGo_contacts_pos (responses : ℕ → Response) :
    ∀ rem k, k + 1 ≤ (retryGo responses rem k).2 := by
  intro rem
  induction rem with
  | zero =>
    intro k
    simp only [retryGo]
    split <;> simp
  | succ r ih =>
    intro k
    simp only [retryGo]
    split
    · exact le_trans (by omega) (ih (k + 1))
    · simp

theorem sessionGet_https_contacts (n : ℕ) (uri : String) (responses : ℕ → Response)
    (huri : startsWithCI uri.data "https://".data = true) :
    1 ≤ (sessionGet (make_session n) uri responses).2 := by
  have hadapter : getAdapter (make_session n) uri = some (.retryAdapter n) := by
    simp [getAdapter, make_session, huri]
  rw [sessionGet, hadapter]
  exact retryGo_contacts_pos responses n 0

theorem sessionGet_non_https_contacts (n : ℕ) (uri : String) (responses : ℕ → Response)
    (huri : startsWithCI uri.data "https://".data = false) :
    (sessionGet (make_session n) uri responses).2 ≤ 1 := by
  rw [sessionGet]
  by_cases hh : startsWithCI uri.data "http://".data = true
  · have : getAdapter (make_session n) uri = some .defaultAdapter := by
      simp [getAdapter, make_session, huri, hh]
    rw [this]
  · have : getAdapter (make_session n) uri = none := by
      simp [getAdapter, make_session, huri, hh]
    rw [this]
    exact Nat.zero_le 1

/-! ### Claim C4: cache freshness boundary -/

/-- C4.  When the data file exists, metadata loads, and age (days
since modification) is at most `max_age_days` (including exactly
equal), `fetch_with_cache` returns the cached file's contents with
zero network contacts; when the age exceeds `max_age_days` (and the
URL reaches the mounted retry adapter), at least one network request
is issued. -/
theorem claim4_cache_freshness_boundary (sid uri dest : String) (maxAge : ℚ)
    (fmt : String) (env : Env) (m : MetaRec) (file : FSFile) (f : NormFrame)
    (hmeta : load_metadata env.fs (cache_paths dest sid fmt).2 = .ok m)
    (hfile : fsLookup env.fs (cache_paths dest sid fmt).1 = some file)
    (henc : file.data = .enc (encFormat fmt) f) :
    ((env.now - file.mtime) / 86400 ≤ maxAge →
      (fetch_with_cache sid uri dest maxAge fmt env).result = .ok f ∧
        (fetch_with_cache sid uri dest maxAge fmt env).contacts = 0) ∧
    (maxAge < (env.now - file.mtime) / 86400 →
      startsWithCI uri.data "https://".data = true →
        1 ≤ (fetch_with_cache sid uri dest maxAge fmt env).contacts) := by
  constructor
  · intro hage
    have hstep1 : step1Read env.fs env.now (cache_paths dest sid fmt).1 maxAge fmt
        = some (.ok f) := by
      unfold step1Read
      rw [hfile]
      show (if (env.now - file.mtime) / 86400 ≤ maxAge then readCached fmt file else none)
          = some (Except.ok f)
      rw [if_pos hage, readCached_enc fmt file f henc]
    constructor <;> simp [fetch_with_cache, hmeta, hstep1]
  · intro hage huri
    have hstep1 : step1Read env.fs env.now (cache_paths dest sid fmt).1 maxAge fmt
        = none := by
      unfold step1Read
      rw [hfile]
      show (if (env.now - file.mtime) / 86400 ≤ maxAge then readCached fmt file else none)
          = none
      rw [if_neg (not_le.mpr hage)]
    rcases hsg : sessionGet (make_session 3) uri env.responses with ⟨res, k⟩
    have hk : 1 ≤ k := by
      have h := sessionGet_https_contacts 3 uri env.responses huri
      rw [hsg] at h
      exact h
    cases res with
    | error e =>
      simp only [fetch_with_cache, hmeta, hstep1, hsg]
      exact hk
    | ok resp =>
      simp only [fetch_with_cache, hmeta, hstep1, hsg, processResponse_contacts]
      exact hk

/-- Witness for C4: a cached Parquet file aged exactly 30 days is
served with no contact; aged 31 days, the endpoint is contacted. -/
theorem claim4_witness :
    ((fetch_with_cache "FOO" "https://api.example/obs" "data/orig" 30 "parquet"
        ⟨[((cache_paths "data/orig" "FOO" "parquet").1,
            ⟨.enc "parquet" ⟨"FOO", [(2020, 1, 1)], [some 1]⟩, 0⟩)], 86400 * 30,
          fun _ => ⟨200, none, none, none⟩⟩).result
        = .ok ⟨"FOO", [(2020, 1, 1)], [some 1]⟩ ∧
      (fetch_with_cache "FOO" "https://api.example/obs" "data/orig" 30 "parquet"
        ⟨[((cache_paths "data/orig" "FOO" "parquet").1,
            ⟨.enc "parquet" ⟨"FOO", [(2020, 1, 1)], [some 1]⟩, 0⟩)], 86400 * 30,
          fun _ => ⟨200, none, none, none⟩⟩).contacts = 0) ∧
    1 ≤ (fetch_with_cache "FOO" "https://api.example/obs" "data/orig" 30 "parquet"
        ⟨[((cache_paths "data/orig" "FOO" "parquet").1,
            ⟨.enc "parquet" ⟨"FOO", [(2020, 1, 1)], [some 1]⟩, 0⟩)], 86400 * 31,
          fun _ => ⟨200, none, none, none⟩⟩).contacts :=
  ⟨(claim4_cache_freshness_boundary "FOO" "https://api.example/obs" "data/orig" 30
      "parquet"
      ⟨[((cache_paths "data/orig" "FOO" "parquet").1,
          ⟨.enc "parquet" ⟨"FOO", [(2020, 1, 1)], [some 1]⟩, 0⟩)], 86400 * 30,
        fun _ => ⟨200, none, none, none⟩⟩
      ⟨none, none, none⟩ ⟨.enc "parquet" ⟨"FOO", [(2020, 1, 1)], [some 1]⟩, 0⟩
      ⟨"FOO", [(2020, 1, 1)], [some 1]⟩ rfl rfl rfl).1 (by norm_num),
   (claim4_cache_freshness_boundary "FOO" "https://api.example/obs" "data/orig" 30
      "parquet"
      ⟨[((cache_paths "data/orig" "FOO" "parquet").1,
          ⟨.enc "parquet" ⟨"FOO", [(2020, 1, 1)], [some 1]⟩, 0⟩)], 86400 * 31,
        fun _ => ⟨200, none, none, none⟩⟩
      ⟨none, none, none⟩ ⟨.enc "parquet" ⟨"FOO", [(2020, 1, 1)], [some 1]⟩, 0⟩
      ⟨"FOO", [(2020, 1, 1)], [some 1]⟩ rfl rfl rfl).2 (by norm_num) (by decide)⟩

/-! ### Claim C6: 304 handling -/

/-- C6.  When the issued request is answered 304: if a cached data
file exists (here necessarily stale, since a fresh one would have
prevented the request), its contents are returned unchanged and the
filesystem is not written at all; if no cached data file exists, the
304 (whose empty body is not valid JSON) produces a fetch failure
rather than a frame, again with no write. -/
theorem claim6_304_uses_cache_no_write (sid uri dest : String) (maxAge : ℚ)
    (fmt : String) (env : Env) (m : MetaRec) (resp : Response) (k : ℕ)
    (hmeta : load_metadata env.fs (cache_paths dest sid fmt).2 = .ok m)
    (hsess : sessionGet (make_session 3) uri env.responses = (.ok resp, k))
    (hst : resp.status = 304) :
    (∀ file f, fsLookup env.fs (cache_paths dest sid fmt).1 = some file →
      file.data = .enc (encFormat fmt) f →
      maxAge < (env.now - file.mtime) / 86400 →
        (fetch_with_cache sid uri dest maxAge fmt env).result = .ok f ∧
        (fetch_with_cache sid uri dest maxAge fmt env).fs = env.fs) ∧
    (fsLookup env.fs (cache_paths dest sid fmt).1 = none → resp.body = none →
      (fetch_with_cache sid uri dest maxAge fmt env).result = .error .jsonDecodeError ∧
      (fetch_with_cache sid uri dest maxAge fmt env).fs = env.fs) := by
  constructor
  · intro file f hfile henc hage
    have hstep1 : step1Read env.fs env.now (cache_paths dest sid fmt).1 maxAge fmt
        = none := by
      unfold step1Read
      rw [hfile]
      show (if (env.now - file.mtime) / 86400 ≤ maxAge then readCached fmt file else none)
          = none
      rw [if_neg (not_le.mpr hage)]
    have hrc := readCached_enc fmt file f henc
    constructor <;>
      simp [fetch_with_cache, hmeta, hstep1, hsess, processResponse, hst, hfile, hrc]
  · intro hnone hbody
    have hstep1 : step1Read env.fs env.now (cache_paths dest sid fmt).1 maxAge fmt
        = none := by
      unfold step1Read
      rw [hnone]
    have h400 : ¬(400 ≤ resp.status ∧ resp.status < 600) := by
      rw [hst]
      omega
    constructor <;>
      simp [fetch_with_cache, hmeta, hstep1, hsess, processResponse, hst, hnone, hbody,
        h400]

/-- Witness for C6: a stale Parquet cache plus a bodyless 304 returns
the cached frame and leaves the filesystem untouched; the same 304
with no cache is a fetch failure. -/
theorem claim6_witness :
    ((fetch_with_cache "FOO" "https://api.example/obs" "data/orig" 30 "parquet"
        ⟨[((cache_paths "data/orig" "FOO" "parquet").1,
            ⟨.enc "parquet" ⟨"FOO", [(2020, 1, 1)], [some 1]⟩, 0⟩)], 86400 * 31,
          fun _ => ⟨304, none, none, none⟩⟩).result
        = .ok ⟨"FOO", [(2020, 1, 1)], [some 1]⟩ ∧
      (fetch_with_cache "FOO" "https://api.example/obs" "data/orig" 30 "parquet"
        ⟨[((cache_paths "data/orig" "FOO" "parquet").1,
            ⟨.enc "parquet" ⟨"FOO", [(2020, 1, 1)], [some 1]⟩, 0⟩)], 86400 * 31,
          fun _ => ⟨304, none, none, none⟩⟩).fs
        = [((cache_paths "data/orig" "FOO" "parquet").1,
            ⟨.enc "parquet" ⟨"FOO", [(2020, 1, 1)], [some 1]⟩, 0⟩)]) ∧
    ((fetch_with_cache "FOO" "https://api.example/obs" "data/orig" 30 "parquet"
        ⟨[], 0, fun _ => ⟨304, none, none, none⟩⟩).result
        = .error .jsonDecodeError ∧
      (fetch_with_cache "FOO" "https://api.example/obs" "data/orig" 30 "parquet"
        ⟨[], 0, fun _ => ⟨304, none, none, none⟩⟩).fs = []) :=
  ⟨(claim6_304_uses_cache_no_write "FOO" "https://api.example/obs" "data/orig" 30
      "parquet"
      ⟨[((cache_paths "data/orig" "FOO" "parquet").1,
          ⟨.enc "parquet" ⟨"FOO", [(2020, 1, 1)], [some 1]⟩, 0⟩)], 86400 * 31,
        fun _ => ⟨304, none, none, none⟩⟩
      ⟨none, none, none⟩ ⟨304, none, none, none⟩ 1 rfl rfl rfl).1
      ⟨.enc "parquet" ⟨"FOO", [(2020, 1, 1)], [some 1]⟩, 0⟩
      ⟨"FOO", [(2020, 1, 1)], [some 1]⟩ rfl rfl (by norm_num),
   (claim6_304_uses_cache_no_write "FOO" "https://api.example/obs" "data/orig" 30
      "parquet" ⟨[], 0, fun _ => ⟨304, none, none, none⟩⟩
      ⟨none, none, none⟩ ⟨304, none, none, none⟩ 1 rfl rfl rfl).2 rfl rfl⟩

/-! ### Claim C7: conditional request headers -/

/-- Whenever `fetch_with_cache` transmits a request, the headers it
carries are exactly the ones built from the loaded metadata. -/
theorem fetch_sentHeaders_eq (sid uri dest : String) (maxAge : ℚ) (fmt : String)
    (env : Env) (m : MetaRec) (h : Headers)
    (hmeta : load_metadata env.fs (cache_paths dest sid fmt).2 = .ok m)
    (hsent : (fetch_with_cache sid uri dest maxAge fmt env).sentHeaders = some h) :
    h = buildHeaders m := by
  simp only [fetch_with_cache, hmeta] at hsent
  cases hstep : step1Read env.fs env.now (cache_paths dest sid fmt).1 maxAge fmt with
  | some r =>
    rw [hstep] at hsent
    simp at hsent
  | none =>
    rw [hstep] at hsent
    rcases hsg : sessionGet (make_session 3) uri env.responses with ⟨res, k⟩
    rw [hsg] at hsent
    cases res with
    | error e =>
      by_cases hk : k = 0
      · simp [hk] at hsent
      · simp only [hk, if_false, if_neg hk] at hsent
        exact (Option.some_inj.mp hsent).symm
    | ok resp =>
      rw [processResponse_sentHeaders] at hsent
      exact (Option.some_inj.mp hsent).symm

/-- C7.  If the loaded metadata holds a non-empty `etag`, every
transmitted request carries `If-None-Match` with exactly that value;
a non-empty `last_modified` is sent as `If-Modified-Since`; an absent
field produces no conditional header. -/
theorem claim7_conditional_headers (sid uri dest : String) (maxAge : ℚ)
    (fmt : String) (env : Env) (m : MetaRec) (h : Headers)
    (hmeta : load_metadata env.fs (cache_paths dest sid fmt).2 = .ok m)
    (hsent : (fetch_with_cache sid uri dest maxAge fmt env).sentHeaders = some h) :
    (∀ v, m.etag = some v → v ≠ "" → h.ifNoneMatch = some v) ∧
    (m.etag = none → h.ifNoneMatch = none) ∧
    (∀ v, m.last_modified = some v → v ≠ "" → h.ifModifiedSince = some v) ∧
    (m.last_modified = none → h.ifModifiedSince = none) := by
  have hb : h = buildHeaders m :=
    fetch_sentHeaders_eq sid uri dest maxAge fmt env m h hmeta hsent
  subst hb
  refine ⟨?_, ?_, ?_, ?_⟩
  · intro v hv hne
    simp [buildHeaders, truthy, hv, hne]
  · intro hv
    simp [buildHeaders, truthy, hv]
  · intro v hv hne
    simp [buildHeaders, truthy, hv, hne]
  · intro hv
    simp [buildHeaders, truthy, hv]

/-- Witness for C7: a fetch run with metadata holding the ETag `W-42`
and no Last-Modified transmits headers (shown by the discharged
`sentHeaders` hypothesis to be `⟨some "W-42", none⟩`) that carry
exactly `If-None-Match: W-42` and no `If-Modified-Since`. -/
theorem claim7_witness :
    Headers.ifNoneMatch ⟨some "W-42", none⟩ = some "W-42" ∧
    Headers.ifModifiedSince ⟨some "W-42", none⟩ = none := by
  have hc := claim7_conditional_headers "FOO" "https://api.example/obs" "data/orig" 30
    "parquet"
    ⟨[((cache_paths "data/orig" "FOO" "parquet").2,
        ⟨.jsonMeta ⟨none, some "W-42", none⟩, 0⟩)], 0,
      fun _ => ⟨200, none, none, none⟩⟩
    ⟨none, some "W-42", none⟩ ⟨some "W-42", none⟩ rfl rfl
  exact ⟨hc.1 "W-42" rfl (by decide), hc.2.2.2 rfl⟩

/-! ### Claim C8: deterministic normalization, coercing bad numerics -/

/-- C8.  Normalizing a payload is deterministic (two runs over the
same observation list give the same frame), and whenever the date
column parses, normalization succeeds with the value column obtained
by the coercing numeric parse — every unparseable value entry (such
as the FRED placeholder `"."`) becomes the missing marker rather than
an error. -/
theorem claim8_normalize_deterministic (sid : String) (obs : List Obs) :
    (∀ f g, normalize sid obs = .ok f → normalize sid obs = .ok g → f = g) ∧
    (∀ ds, (obs.map Obs.date).mapM parseDate = some ds →
      normalize sid obs = .ok ⟨sid, ds, obs.map (fun o => parseNum o.value)⟩) ∧
    parseNum "." = none := by
  refine ⟨?_, ?_, ?_⟩
  · intro f g h1 h2
    have h3 := h1.symm.trans h2
    injection h3
  · intro ds hds
    unfold normalize
    rw [hds]
  · rfl

/-- Witness for C8 at the spec's end-to-end example payload: the
value `"2"` parses and `"."` becomes the missing marker. -/
theorem claim8_witness :
    normalize "FOO" [⟨"2020-01-01", "2"⟩, ⟨"2020-02-01", "."⟩]
      = .ok ⟨"FOO", [(2020, 1, 1), (2020, 2, 1)],
          [some ((2 : ℕ) : ℚ), none]⟩ :=
  (claim8_normalize_deterministic "FOO"
    [⟨"2020-01-01", "2"⟩, ⟨"2020-02-01", "."⟩]).2.1
    [(2020, 1, 1), (2020, 2, 1)] (by decide)

/-! ### Claim C10: retry adapter mounted only for `https://` -/

/-- C10.  The retry adapter of `_make_session` is mounted only under
the `https://` key: a GET to a URL of any other scheme either goes
through the default adapter (`http://`, no retry pool: the first
response comes back after exactly one contact whatever its status) or
matches no adapter at all, so the endpoint is never contacted more
than once, and a `fetch_with_cache` call on such a URL makes at most
one contact regardless of the environment. -/
theorem claim10_retry_only_https (uri : String) (n : ℕ) (responses : ℕ → Response)
    (huri : startsWithCI uri.data "https://".data = false) :
    ((sessionGet (make_session n) uri responses).2 ≤ 1) ∧
    (startsWithCI uri.data "http://".data = true →
      sessionGet (make_session n) uri responses = (.ok (responses 0), 1)) ∧
    (∀ sid dest : String, ∀ maxAge : ℚ, ∀ fmt : String, ∀ env : Env,
      (fetch_with_cache sid uri dest maxAge fmt env).contacts ≤ 1) := by
  refine ⟨sessionGet_non_https_contacts n uri responses huri, ?_, ?_⟩
  · intro hh
    have : getAdapter (make_session n) uri = some .defaultAdapter := by
      simp [getAdapter, make_session, huri, hh]
    rw [sessionGet, this]
  · intro sid dest maxAge fmt env
    cases hload : load_metadata env.fs (cache_paths dest sid fmt).2 with
    | error e => simp [fetch_with_cache, hload]
    | ok m =>
      cases hstep : step1Read env.fs env.now (cache_paths dest sid fmt).1 maxAge fmt with
      | some r => simp [fetch_with_cache, hload, hstep]
      | none =>
        rcases hsg : sessionGet (make_session 3) uri env.responses with ⟨res, k⟩
        have hk : k ≤ 1 := by
          have h := sessionGet_non_https_contacts 3 uri env.responses huri
          rw [hsg] at h
          exact h
        cases res with
        | error e =>
          simp only [fetch_with_cache, hload, hstep, hsg]
          exact hk
        | ok resp =>
          simp only [fetch_with_cache, hload, hstep, hsg, processResponse_contacts]
          exact hk

/-- Witness for C10: over plain `http://` the session returns the
first 503 after exactly one contact, and a fetch against that URL
makes at most one contact. -/
theorem claim10_witness :
    ((sessionGet (make_session 3) "http://api.example/obs"
        (fun _ => ⟨503, none, none, none⟩)).2 ≤ 1) ∧
    (sessionGet (make_session 3) "http://api.example/obs"
        (fun _ => ⟨503, none, none, none⟩)
      = (.ok ⟨503, none, none, none⟩, 1)) ∧
    (fetch_with_cache "FOO" "http://api.example/obs" "data/orig" 30 "parquet"
        ⟨[], 0, fun _ => ⟨503, none, none, none⟩⟩).contacts ≤ 1 :=
  ⟨(claim10_retry_only_https "http://api.example/obs" 3
      (fun _ => ⟨503, none, none, none⟩) (by decide)).1,
   (claim10_retry_only_https "http://api.example/obs" 3
      (fun _ => ⟨503, none, none, none⟩) (by decide)).2.1 (by decide),
   (claim10_retry_only_https "http://api.example/obs" 3
      (fun _ => ⟨503, none, none, none⟩) (by decide)).2.2 "FOO" "data/orig" 30 "parquet"
      ⟨[], 0, fun _ => ⟨503, none, none, none⟩⟩⟩

end Capstone
